import Mathlib

/-!
Verification of the Nearby-Places Ranking & Presentation Pipeline of the
travel-mind-web repository.  The definitions below are a shallow embedding of
the TypeScript source:

* `src/services/gemini.ts`, `getNearbyRestaurants` (lines 156-177): the
  response-normalisation block, modelled by `getNearbyRestaurants` below
  together with an executable model of the host `JSON.parse`.
* `src/App.tsx`: `getDistance` (lines 51-61), `StarRating` (lines 338-351),
  the `handleSearch` try/catch (lines 388-414) and
  `sortedAndFilteredRestaurants` (lines 433-443).
* `extractLocality` is not present under `src/`; it is modelled from the
  specification text (see its doc comment).

JavaScript dynamic values produced by `JSON.parse` are modelled by the
inductive type `Json`; JSON numbers are modelled by `ℚ` (the binary64
rounding of the host parser is not observable in any property proved here).
-/

namespace TravelMind

/-- A JavaScript value as produced by `JSON.parse` (no `undefined`, no
functions; `undefined` is modelled by `Option.none` at use sites). -/
inductive Json : Type where
  | null : Json
  | bool (b : Bool) : Json
  | num (q : ℚ) : Json
  | str (s : String) : Json
  | arr (elems : List Json) : Json
  | obj (fields : List (String × Json)) : Json

/-- Whitespace accepted between tokens by the JSON grammar. -/
def jsonWs (c : Char) : Bool :=
  c = ' ' || c = '\t' || c = '\n' || c = '\x0d'

def skipWs : List Char → List Char
  | [] => []
  | c :: cs => if jsonWs c then skipWs cs else c :: cs

def takeDigits : List Char → List Char × List Char
  | [] => ([], [])
  | c :: cs =>
    if c.isDigit then
      let p := takeDigits cs
      (c :: p.1, p.2)
    else ([], c :: cs)

def digitsToNat (ds : List Char) : Nat :=
  ds.foldl (fun a c => a * 10 + (c.toNat - 48)) 0

/-- Exponent part of a JSON number, applied to the mantissa `m`. -/
def parseExpPart (m : ℚ) (cs : List Char) : Option (ℚ × List Char) :=
  let p :=
    match cs with
    | '+' :: r => (false, r)
    | '-' :: r => (true, r)
    | _ => (false, cs)
  match takeDigits p.2 with
  | ([], _) => none
  | (eds, cs2) =>
    let e := digitsToNat eds
    some (if p.1 then m / ((10 : ℚ) ^ e) else m * ((10 : ℚ) ^ e), cs2)

/-- The JSON number grammar.  The value is kept exactly as a rational. -/
def parseNumber (cs : List Char) : Option (ℚ × List Char) :=
  let sp :=
    match cs with
    | '-' :: r => (true, r)
    | _ => (false, cs)
  match takeDigits sp.2 with
  | ([], _) => none
  | (ints, cs2) =>
    let ipart : ℚ := (digitsToNat ints : ℚ)
    let fr : Option (ℚ × List Char) :=
      match cs2 with
      | '.' :: r =>
        match takeDigits r with
        | ([], _) => none
        | (fds, r2) => some (ipart + (digitsToNat fds : ℚ) / ((10 : ℚ) ^ fds.length), r2)
      | _ => some (ipart, cs2)
    match fr with
    | none => none
    | some (m, cs3) =>
      let ex : Option (ℚ × List Char) :=
        match cs3 with
        | 'e' :: r => parseExpPart m r
        | 'E' :: r => parseExpPart m r
        | _ => some (m, cs3)
      match ex with
      | none => none
      | some (v, cs4) => some (if sp.1 then -v else v, cs4)

def isHexDigit (c : Char) : Bool :=
  let n := c.toNat
  (48 ≤ n && n ≤ 57) || (97 ≤ n && n ≤ 102) || (65 ≤ n && n ≤ 70)

def hexVal (c : Char) : Nat :=
  let n := c.toNat
  if 48 ≤ n && n ≤ 57 then n - 48
  else if 97 ≤ n && n ≤ 102 then n - 87
  else if 65 ≤ n && n ≤ 70 then n - 55
  else 0

/-- Body of a JSON string literal, after the opening quote.  Returns the
decoded characters and the remaining input. -/
def parseStringBody : List Char → Option (List Char × List Char)
  | [] => none
  | '"' :: rest => some ([], rest)
  | '\\' :: '"' :: rest => (parseStringBody rest).map (fun p => ('"' :: p.1, p.2))
  | '\\' :: '\\' :: rest => (parseStringBody rest).map (fun p => ('\\' :: p.1, p.2))
  | '\\' :: '/' :: rest => (parseStringBody rest).map (fun p => ('/' :: p.1, p.2))
  | '\\' :: 'b' :: rest => (parseStringBody rest).map (fun p => (Char.ofNat 8 :: p.1, p.2))
  | '\\' :: 'f' :: rest => (parseStringBody rest).map (fun p => (Char.ofNat 12 :: p.1, p.2))
  | '\\' :: 'n' :: rest => (parseStringBody rest).map (fun p => ('\n' :: p.1, p.2))
  | '\\' :: 'r' :: rest => (parseStringBody rest).map (fun p => (Char.ofNat 13 :: p.1, p.2))
  | '\\' :: 't' :: rest => (parseStringBody rest).map (fun p => ('\t' :: p.1, p.2))
  | '\\' :: 'u' :: a :: b :: c :: d :: rest =>
    if isHexDigit a && isHexDigit b && isHexDigit c && isHexDigit d then
      (parseStringBody rest).map (fun p =>
        (Char.ofNat (((hexVal a * 16 + hexVal b) * 16 + hexVal c) * 16 + hexVal d) :: p.1, p.2))
    else none
  | '\\' :: _ => none
  | c :: rest =>
    if c.toNat < 32 then none
    else (parseStringBody rest).map (fun p => (c :: p.1, p.2))

mutual

/-- A JSON value.  `fuel` bounds the recursion depth; the top-level entry
point supplies more fuel than any input of that length can consume. -/
def parseVal : Nat → List Char → Option (Json × List Char)
  | 0, _ => none
  | fuel + 1, cs =>
    match skipWs cs with
    | 'n' :: 'u' :: 'l' :: 'l' :: rest => some (Json.null, rest)
    | 't' :: 'r' :: 'u' :: 'e' :: rest => some (Json.bool true, rest)
    | 'f' :: 'a' :: 'l' :: 's' :: 'e' :: rest => some (Json.bool false, rest)
    | '"' :: rest => (parseStringBody rest).map (fun p => (Json.str (String.mk p.1), p.2))
    | '[' :: rest =>
      (match skipWs rest with
       | ']' :: rest2 => some (Json.arr [], rest2)
       | _ => (parseArrItems fuel rest).map (fun p => (Json.arr p.1, p.2)))
    | '\x7b' :: rest =>
      (match skipWs rest with
       | '\x7d' :: rest2 => some (Json.obj [], rest2)
       | _ => (parseObjItems fuel rest).map (fun p => (Json.obj p.1, p.2)))
    | cs2 => (parseNumber cs2).map (fun p => (Json.num p.1, p.2))

/-- One or more comma-separated array items followed by a closing bracket. -/
def parseArrItems : Nat → List Char → Option (List Json × List Char)
  | 0, _ => none
  | fuel + 1, cs =>
    match parseVal fuel cs with
    | none => none
    | some (v, rest) =>
      match skipWs rest with
      | ',' :: rest2 => (parseArrItems fuel rest2).map (fun p => (v :: p.1, p.2))
      | ']' :: rest2 => some ([v], rest2)
      | _ => none

/-- One or more comma-separated object members followed by a closing brace. -/
def parseObjItems : Nat → List Char → Option (List (String × Json) × List Char)
  | 0, _ => none
  | fuel + 1, cs =>
    match skipWs cs with
    | '"' :: rest =>
      (match parseStringBody rest with
       | none => none
       | some (key, rest2) =>
         match skipWs rest2 with
         | ':' :: rest3 =>
           (match parseVal fuel rest3 with
            | none => none
            | some (v, rest4) =>
              match skipWs rest4 with
              | ',' :: rest5 =>
                (parseObjItems fuel rest5).map (fun p => ((String.mk key, v) :: p.1, p.2))
              | '\x7d' :: rest5 => some ([(String.mk key, v)], rest5)
              | _ => none)
         | _ => none)
    | _ => none

end

/-- Model of the host `JSON.parse`: parse a complete JSON text, rejecting
trailing garbage; `none` models a thrown `SyntaxError`. -/
def parseJson (cs : List Char) : Option Json :=
  match parseVal (cs.length + 1) cs with
  | some (j, rest) => if skipWs rest = [] then some j else none
  | none => none

/-- `String.prototype.trim` (restricted to the common whitespace characters;
the host also trims some exotic Unicode spaces, which no claim exercises). -/
def jsTrim (cs : List Char) : List Char :=
  ((cs.dropWhile jsonWs).reverse.dropWhile jsonWs).reverse

def fenceOpen : List Char := ['\x60', '\x60', '\x60', 'j', 's', 'o', 'n']

def fenceClose : List Char := ['\x60', '\x60', '\x60']

/-- The fence stripping in `getNearbyRestaurants`: the regex replace removes
one leading three-backtick-json fence and one trailing three-backtick fence
(the regex alternation is anchored at the start and the end of the string). -/
def stripFences (cs : List Char) : List Char :=
  let s1 := if fenceOpen.isPrefixOf cs then cs.drop 7 else cs
  if fenceClose.isSuffixOf s1 then s1.take (s1.length - 3) else s1

/-- JavaScript truthiness of a `JSON.parse` value (`NaN` and `undefined`
cannot occur in parser output). -/
def jsTruthy : Json → Bool
  | Json.null => false
  | Json.bool b => b
  | Json.num q => decide (q ≠ 0)
  | Json.str s => decide (s ≠ "")
  | Json.arr _ => true
  | Json.obj _ => true

/-- Property access `o[k]`: `none` models the JavaScript `undefined`.  On a
duplicate key `JSON.parse` keeps the last occurrence, hence the `foldl`. -/
def getField (j : Json) (k : String) : Option Json :=
  match j with
  | Json.obj fields => fields.foldl (fun acc kv => if kv.1 = k then some kv.2 else acc) none
  | _ => none

/-- `v || dflt` on a possibly-absent field value. -/
def jsOr (v : Option Json) (dflt : Json) : Json :=
  match v with
  | some j => if jsTruthy j then j else dflt
  | none => dflt

mutual

/-- Template-literal stringification of a defined value.  Integers are
rendered exactly; a non-integer rational is rendered as num/den (the host
prints a decimal expansion; no claim depends on the rendering of a numeric
name).  Arrays follow `Array.prototype.toString`, objects print
"[object Object]". -/
def jsDisplayVal : Json → String
  | Json.null => "null"
  | Json.bool true => "true"
  | Json.bool false => "false"
  | Json.num q => if q.den = 1 then toString q.num else toString q.num ++ "/" ++ toString q.den
  | Json.str s => s
  | Json.arr es => jsDisplayList es
  | Json.obj _ => "[object Object]"

def jsDisplayList : List Json → String
  | [] => ""
  | [e] => jsDisplayVal e
  | e :: es => jsDisplayVal e ++ "," ++ jsDisplayList es

end

/-- Template-literal stringification of a possibly-undefined value. -/
def jsDisplay : Option Json → String
  | none => "undefined"
  | some j => jsDisplayVal j

/-- The runtime value built by the map block of `getNearbyRestaurants`
(gemini.ts 164-172).  TypeScript annotates it as `Restaurant`, but no runtime
coercion happens, so each field holds whatever JSON value the payload
supplied; `Option` models fields that can be `undefined`. -/
structure RawRestaurant : Type where
  placeId : Json
  name : Option Json
  rating : Json
  reviewCount : Json
  vicinity : Option Json
  location : Option Json
  types : Json

/-- One element of the map block.  `suffix` stands for the `Math.random()`
suffix of the synthesised fallback placeId.  Property access on `null`
throws a TypeError (modelled by `none`); every other value merely yields
`undefined` fields. -/
def normElem (suffix : String) (place : Json) : Option RawRestaurant :=
  match place with
  | Json.null => none
  | _ =>
    some
      { placeId := jsOr (getField place "placeId")
          (Json.str ("generated-" ++ jsDisplay (getField place "name") ++ "-" ++ suffix))
        name := getField place "name"
        rating := jsOr (getField place "rating") (Json.num 0)
        reviewCount := jsOr (getField place "reviewCount") (Json.num 0)
        vicinity := getField place "vicinity"
        location := getField place "location"
        types := jsOr (getField place "types") (Json.arr []) }

/-- `places.map(...)` over the parsed array.  `rnd i` is the random suffix
available to element `i`; a TypeError on any element (a `null` entry) aborts
the whole map (the surrounding try/catch then returns the empty list). -/
def normPlaces (rnd : Nat → String) : Nat → List Json → Option (List RawRestaurant)
  | _, [] => some []
  | i, p :: ps =>
    match normElem (rnd i) p with
    | none => none
    | some r =>
      match normPlaces rnd (i + 1) ps with
      | none => none
      | some rs => some (r :: rs)

/-- The parse/map block of `getNearbyRestaurants` (gemini.ts 156-177),
starting from the oracle's response text (`none` models an undefined
`response.text`).  Every failure path — empty text, a JSON parse error, a
payload without a callable `.map` (any non-array), or a TypeError inside the
map callback — is caught and yields the empty list. -/
def getNearbyRestaurants (text : Option String) (rnd : Nat → String) : List RawRestaurant :=
  match text with
  | none => []
  | some s =>
    let t := stripFences (jsTrim s.data)
    if t.isEmpty then []
    else
      match parseJson t with
      | none => []
      | some (Json.arr es) => (normPlaces rnd 0 es).getD []
      | some _ => []

/-- `r.location.lat` in `handleSearch` throws exactly when `location` is
`undefined` or `null`. -/
def locationAccessThrows (r : RawRestaurant) : Bool :=
  match r.location with
  | none => true
  | some Json.null => true
  | some _ => false

/-- The `results.map` of `handleSearch`, attaching a distance to each record;
`none` models the TypeError thrown on a record whose `location` cannot be
dereferenced.  The numeric distance itself is supplied by the `dist`
parameter (the real-valued `getDistance` is modelled separately below; its
value is irrelevant to every property proved about this function). -/
def attachAll (dist : RawRestaurant → ℝ) : List RawRestaurant → Option (List (RawRestaurant × ℝ))
  | [] => some []
  | r :: rs =>
    if locationAccessThrows r then none
    else (attachAll dist rs).map (fun l => (r, dist r) :: l)

/-- The try block of `handleSearch` (App.tsx 401-413): obtain the normalized
records, attach distances, and either resolve with the list that is stored in
the `restaurants` state (`Except.ok`) or throw, in which case the catch
branch stores the message in the `error` state (`Except.error`). -/
def handleSearchOutcome (dist : RawRestaurant → ℝ) (text : Option String)
    (rnd : Nat → String) : Except String (List (RawRestaurant × ℝ)) :=
  match attachAll dist (getNearbyRestaurants text rnd) with
  | none => Except.error "TypeError: Cannot read properties of undefined"
  | some rs => Except.ok rs

/-- The `error` state field set by `handleSearch`: `none` when the try block
completes, the caught message otherwise. -/
def handleSearchError (dist : RawRestaurant → ℝ) (text : Option String)
    (rnd : Nat → String) : Option String :=
  match handleSearchOutcome dist text rnd with
  | Except.ok _ => none
  | Except.error m => some m

/-- The TypeScript `Restaurant` interface (types.ts 15-24), including the
optional `distance` attached by `handleSearch`.  The sort/filter of
`LocationExplorer` operates on values of this shape; numeric fields are
modelled by `ℚ`. -/
structure Restaurant : Type where
  placeId : String
  name : String
  rating : ℚ
  reviewCount : ℚ
  vicinity : String
  location : ℚ × ℚ
  imageUrl : Option String
  distance : Option ℚ
deriving DecidableEq

/-- The `sortBy` state of `LocationExplorer` (App.tsx 385). -/
inductive SortBy : Type where
  | distance : SortBy
  | rating : SortBy
deriving DecidableEq

/-- `r.distance ?? Infinity` as used by the distance comparator. -/
def distKey (r : Restaurant) : WithTop ℚ :=
  match r.distance with
  | none => ⊤
  | some d => (d : WithTop ℚ)

/-- Comes-before-or-equal for the comparator
`(a.distance ?? Infinity) - (b.distance ?? Infinity)` (App.tsx 438): the
relation holds when the comparator value is non-positive.  Two missing
distances subtract to NaN, which the ECMAScript sort treats as 0 (equal) —
matching the `⊤ ≤ ⊤` case. -/
def distanceRel (a b : Restaurant) : Prop := distKey a ≤ distKey b

/-- Comes-before-or-equal for the comparator `b.rating - a.rating`
(App.tsx 440): the relation holds when the comparator value is
non-positive. -/
def ratingRel (a b : Restaurant) : Prop := b.rating ≤ a.rating

def sortRel : SortBy → Restaurant → Restaurant → Prop
  | SortBy.distance => distanceRel
  | SortBy.rating => ratingRel

instance : DecidableRel distanceRel :=
  fun a b => inferInstanceAs (Decidable (distKey a ≤ distKey b))

instance : DecidableRel ratingRel :=
  fun a b => inferInstanceAs (Decidable (b.rating ≤ a.rating))

instance (k : SortBy) : DecidableRel (sortRel k) :=
  match k with
  | SortBy.distance => inferInstanceAs (DecidableRel distanceRel)
  | SortBy.rating => inferInstanceAs (DecidableRel ratingRel)

instance : IsTotal Restaurant distanceRel :=
  ⟨fun a b => le_total (distKey a) (distKey b)⟩

instance : IsTrans Restaurant distanceRel :=
  ⟨fun _ _ _ h1 h2 => le_trans h1 h2⟩

instance : IsTotal Restaurant ratingRel :=
  ⟨fun a b => le_total b.rating a.rating⟩

instance : IsTrans Restaurant ratingRel :=
  ⟨fun _ _ _ h1 h2 => le_trans h2 h1⟩

instance (k : SortBy) : IsTotal Restaurant (sortRel k) :=
  match k with
  | SortBy.distance => inferInstanceAs (IsTotal Restaurant distanceRel)
  | SortBy.rating => inferInstanceAs (IsTotal Restaurant ratingRel)

instance (k : SortBy) : IsTrans Restaurant (sortRel k) :=
  match k with
  | SortBy.distance => inferInstanceAs (IsTrans Restaurant distanceRel)
  | SortBy.rating => inferInstanceAs (IsTrans Restaurant ratingRel)

/-- `sortedAndFilteredRestaurants` (App.tsx 433-443): filter by
`r.rating >= minRating`, then sort with the selected comparator.  The
ECMAScript `Array.prototype.sort` is stable (ES2019); it is modelled by
insertion sort with the comparator's comes-before-or-equal relation, which
places an element before the first existing element it need not follow —
the stable order. -/
def sortedAndFilteredRestaurants (restaurants : List Restaurant) (sortBy : SortBy)
    (minRating : ℚ) : List Restaurant :=
  List.insertionSort (sortRel sortBy)
    (restaurants.filter (fun r => decide (minRating ≤ r.rating)))

/-- `Math.atan2` restricted to the real plane (the JavaScript signed-zero
distinctions do not exist in `ℝ`). -/
noncomputable def atan2 (y x : ℝ) : ℝ :=
  if 0 < x then Real.arctan (y / x)
  else if x < 0 then
    (if 0 ≤ y then Real.arctan (y / x) + Real.pi else Real.arctan (y / x) - Real.pi)
  else
    (if 0 < y then Real.pi / 2 else if y < 0 then -(Real.pi / 2) else 0)

/-- The haversine quantity `a` of `getDistance` (App.tsx 55-58). -/
noncomputable def hav (lat1 lon1 lat2 lon2 : ℝ) : ℝ :=
  Real.sin ((lat2 - lat1) * Real.pi / 180 / 2) * Real.sin ((lat2 - lat1) * Real.pi / 180 / 2) +
    Real.cos (lat1 * Real.pi / 180) * Real.cos (lat2 * Real.pi / 180) *
      (Real.sin ((lon2 - lon1) * Real.pi / 180 / 2) * Real.sin ((lon2 - lon1) * Real.pi / 180 / 2))

/-- `getDistance` (App.tsx 51-61): haversine distance in kilometres with
Earth radius 6371, over the ideal reals. -/
noncomputable def getDistance (lat1 lon1 lat2 lon2 : ℝ) : ℝ :=
  6371 * (2 * atan2 (Real.sqrt (hav lat1 lon1 lat2 lon2))
    (Real.sqrt (1 - hav lat1 lon1 lat2 lon2)))

/-- `Math.floor(rating)` (App.tsx 339). -/
def fullStars (rating : ℚ) : ℤ := ⌊rating⌋

/-- `rating % 1`: the JavaScript remainder truncates toward zero. -/
def jsMod1 (rating : ℚ) : ℚ :=
  if 0 ≤ rating then rating - ⌊rating⌋ else rating - ⌈rating⌉

/-- `rating % 1 >= 0.5` (App.tsx 340). -/
def halfStar (rating : ℚ) : Prop := (1 : ℚ) / 2 ≤ jsMod1 rating

instance (rating : ℚ) : Decidable (halfStar rating) :=
  inferInstanceAs (Decidable ((1 : ℚ) / 2 ≤ jsMod1 rating))

/-- The half star rendered as a count: `(halfStar ? 1 : 0)`. -/
def halfStarCount (rating : ℚ) : ℤ := if halfStar rating then 1 else 0

/-- `5 - fullStars - (halfStar ? 1 : 0)` (App.tsx 341); a negative value
makes the `Array(emptyStars)` spread throw a RangeError. -/
def emptyStars (rating : ℚ) : ℤ := 5 - fullStars rating - halfStarCount rating

def splitOnComma : List Char → List (List Char)
  | [] => [[]]
  | c :: rest =>
    match splitOnComma rest with
    | [] => [[]]
    | s :: ss => if c = ',' then [] :: s :: ss else (c :: s) :: ss

/-- A segment passes when it is at least 3 characters long and not purely
numeric. -/
def passes (cs : List Char) : Bool := decide (3 ≤ cs.length) && !(cs.all (·.isDigit))

/-- Modelled from the spec: `extractLocality` (spec §4.4) does not appear in
the sources under src/; this definition follows the specification words —
split the comma-separated address into (trimmed) segments, scan from the
second-to-last segment backward, skip any segment that is purely numeric or
shorter than 3 characters, and return the first passing segment; if none
passes fall back to the second-to-last segment, or to the whole string when
there is only one segment. -/
def extractLocality (vicinity : String) : String :=
  let segs := (splitOnComma vicinity.data).map jsTrim
  if segs.length ≤ 1 then vicinity
  else
    match (segs.take (segs.length - 1)).reverse.find? passes with
    | some c => String.mk c
    | none => String.mk (segs.getD (segs.length - 2) [])

def isJsonArr : Json → Bool
  | Json.arr _ => true
  | _ => false

/-- The oracle's response text is malformed in the sense of the spec: after
the trim and fence strip of `getNearbyRestaurants`, it is not valid JSON, or
it parses to something other than an array. -/
def malformedPayload (s : String) : Bool :=
  match parseJson (stripFences (jsTrim s.data)) with
  | none => true
  | some j => !isJsonArr j

/-- The placeId strings of a payload each of whose elements carries a
non-empty string `placeId`; `none` when some element does not. -/
def pidStrings : List Json → Option (List String)
  | [] => some []
  | e :: es =>
    match getField e "placeId" with
    | some (Json.str s) =>
      if s = "" then none
      else (pidStrings es).map (fun ss => s :: ss)
    | _ => none

/-! ### Helper lemmas -/

theorem normElem_eq (suffix : String) (place : Json) (h : place ≠ Json.null) :
    normElem suffix place = some
      { placeId := jsOr (getField place "placeId")
          (Json.str ("generated-" ++ jsDisplay (getField place "name") ++ "-" ++ suffix))
        name := getField place "name"
        rating := jsOr (getField place "rating") (Json.num 0)
        reviewCount := jsOr (getField place "reviewCount") (Json.num 0)
        vicinity := getField place "vicinity"
        location := getField place "location"
        types := jsOr (getField place "types") (Json.arr []) } := by
  cases place
  case null => exact absurd rfl h
  all_goals rfl

theorem jsOr_of_falsy {v : Option Json} {d : Json}
    (h : v = none ∨ ∃ j, v = some j ∧ jsTruthy j = false) : jsOr v d = d := by
  rcases h with rfl | ⟨j, rfl, hj⟩
  · rfl
  · simp [jsOr, hj]

theorem jsOr_of_truthy {v : Json} {d : Json} (h : jsTruthy v = true) :
    jsOr (some v) d = v := by
  simp [jsOr, h]

/-- Inserting into a sorted run commutes with a filter that the skipped
elements cannot satisfy: this is the key stability step. -/
theorem filter_orderedInsert (r : α → α → Prop) [DecidableRel r] (p : α → Bool) (x : α)
    (l : List α) (hx : p x = true → ∀ y, ¬ r x y → p y = false) :
    (List.orderedInsert r x l).filter p
      = if p x then x :: l.filter p else l.filter p := by
  induction l with
  | nil =>
    by_cases hpx : p x <;> simp [List.orderedInsert, List.filter_cons, hpx]
  | cons y ys ih =>
    by_cases hr : r x y
    · by_cases hpx : p x <;>
        simp [List.orderedInsert, hr, List.filter_cons, hpx]
    · have hstep : List.orderedInsert r x (y :: ys) = y :: List.orderedInsert r x ys := by
        simp [List.orderedInsert, hr]
      by_cases hpx : p x
      · have hpy : p y = false := hx hpx y hr
        rw [hstep, List.filter_cons, List.filter_cons]
        simp [hpy, ih, hpx]
      · rw [hstep, List.filter_cons, List.filter_cons]
        by_cases hpy : p y <;> simp [hpy, ih, hpx]

/-- A stable sort leaves every equivalence class of the sort key in its
original relative order; expressed through `filter`. -/
theorem filter_insertionSort (r : α → α → Prop) [DecidableRel r] (p : α → Bool)
    (h : ∀ x y, ¬ r x y → p x = true → p y = false) :
    ∀ l : List α, (List.insertionSort r l).filter p = l.filter p
  | [] => rfl
  | x :: l => by
    rw [List.insertionSort,
      filter_orderedInsert r p x _ (fun hpx y hry => h x y hry hpx),
      filter_insertionSort r p h l, List.filter_cons]

theorem distKey_eq_top {r : Restaurant} : distKey r = ⊤ ↔ r.distance = none := by
  cases h : r.distance <;> simp [distKey, h]

/-- Under the hypothesis that every payload element carries a non-empty
string placeId, the normalized records carry exactly those placeIds. -/
theorem normPlaces_placeIds (rnd : Nat → String) :
    ∀ (i : Nat) (es : List Json) (rs : List RawRestaurant) (ss : List String),
      normPlaces rnd i es = some rs → pidStrings es = some ss →
      rs.map (fun r => r.placeId) = ss.map Json.str := by
  intro i es
  induction es generalizing i with
  | nil =>
    intro rs ss h1 h2
    simp only [normPlaces, Option.some.injEq] at h1
    simp only [pidStrings, Option.some.injEq] at h2
    subst h1; subst h2; rfl
  | cons p ps ih =>
    intro rs ss h1 h2
    cases hg : getField p "placeId" with
    | none => simp only [pidStrings, hg] at h2; cases h2
    | some v =>
      cases v with
      | str s =>
        simp only [pidStrings, hg] at h2
        by_cases hs : s = ""
        · simp [hs] at h2
        · rw [if_neg hs] at h2
          obtain ⟨ss', hss', rfl⟩ := Option.map_eq_some'.mp h2
          have hp : p ≠ Json.null := by
            intro hnull; subst hnull; simp [getField] at hg
          rw [normPlaces, normElem_eq (rnd i) p hp] at h1
          cases hps : normPlaces rnd (i + 1) ps with
          | none => rw [hps] at h1; cases h1
          | some rs' =>
            rw [hps] at h1
            simp only [Option.some.injEq] at h1
            subst h1
            have hpid : jsOr (getField p "placeId")
                (Json.str ("generated-" ++ jsDisplay (getField p "name") ++ "-" ++ rnd i))
                = Json.str s := by
              rw [hg]; exact jsOr_of_truthy (by simp [jsTruthy, hs])
            simp only [List.map_cons, hpid]
            exact congrArg (Json.str s :: ·) (ih (i + 1) rs' ss' hps hss')
      | null => simp only [pidStrings, hg] at h2; cases h2
      | bool b => simp only [pidStrings, hg] at h2; cases h2
      | num q => simp only [pidStrings, hg] at h2; cases h2
      | arr l => simp only [pidStrings, hg] at h2; cases h2
      | obj l => simp only [pidStrings, hg] at h2; cases h2

/-! ### The claims -/

/-- C1, counterexample: the claim says every record returned by the
normalize step has a name and a location; on the payload "[{}]" (braces
escaped in the Lean literal) the step returns one record whose name and
location are both undefined. -/
theorem claim1_counterexample :
    (getNearbyRestaurants (some "[\x7b\x7d]") (fun _ => "R")).map
      (fun r => (r.name, r.location)) = [(none, none)] := rfl

/-- C1 (amended): normalization drops nothing.  Whenever the map block
completes (that is, no element of the parsed array is null, which would make
property access throw), it returns exactly one record per element, and each
record's `name` and `location` are the element's fields passed through —
possibly absent, never dropped. -/
theorem claim1_theorem (rnd : Nat → String) (i : Nat) (es : List Json)
    (h : ∀ e ∈ es, e ≠ Json.null) :
    ∃ rs, normPlaces rnd i es = some rs ∧ rs.length = es.length ∧
      rs.map (fun r => r.name) = es.map (fun e => getField e "name") ∧
      rs.map (fun r => r.location) = es.map (fun e => getField e "location") := by
  induction es generalizing i with
  | nil => exact ⟨[], rfl, rfl, rfl, rfl⟩
  | cons p ps ih =>
    have hp : p ≠ Json.null := h p (List.mem_cons_self p ps)
    obtain ⟨rs, hrs, hlen, hname, hloc⟩ :=
      ih (i + 1) (fun e he => h e (List.mem_cons_of_mem p he))
    obtain ⟨r0, hr0, hr0n, hr0l⟩ :
        ∃ r0, normElem (rnd i) p = some r0 ∧ r0.name = getField p "name" ∧
          r0.location = getField p "location" :=
      ⟨_, normElem_eq (rnd i) p hp, rfl, rfl⟩
    refine ⟨r0 :: rs, ?_, ?_, ?_, ?_⟩
    · rw [normPlaces, hr0, hrs]
    · simp [hlen]
    · simp [hr0n, hname]
    · simp [hr0l, hloc]

/-- C1 witness: the amended theorem applied to the one-element payload made
of an empty object. -/
theorem claim1_witness :
    ∃ rs, normPlaces (fun _ => "R") 0 [Json.obj []] = some rs ∧
      rs.length = [Json.obj []].length ∧
      rs.map (fun r => r.name) = [Json.obj []].map (fun e => getField e "name") ∧
      rs.map (fun r => r.location) = [Json.obj []].map (fun e => getField e "location") :=
  claim1_theorem (fun _ => "R") 0 [Json.obj []]
    (by intro e he; rw [List.mem_singleton] at he; subst he; exact fun hc => Json.noConfusion hc)

/-- C2, counterexample: the claim says a malformed payload yields an empty
sequence plus a reported error to the caller; on the literal text "not json"
the search completes successfully with an empty list and the error state
stays unset (the parse error is only logged to the console). -/
theorem claim2_counterexample :
    handleSearchOutcome (fun _ => 0) (some "not json") (fun _ => "R") = Except.ok []
      ∧ handleSearchError (fun _ => 0) (some "not json") (fun _ => "R") = none :=
  ⟨rfl, rfl⟩

/-- C2 (amended): for every malformed response text (not JSON, or not a JSON
array, after the trim and fence strip), the search completes with the empty
result list, no exception escapes to the UI layer, and no error is reported
to the caller — the caller cannot distinguish a malformed payload from zero
results. -/
theorem claim2_theorem (dist : RawRestaurant → ℝ) (rnd : Nat → String) (s : String)
    (h : malformedPayload s = true) :
    handleSearchOutcome dist (some s) rnd = Except.ok []
      ∧ handleSearchError dist (some s) rnd = none := by
  have hg : getNearbyRestaurants (some s) rnd = [] := by
    unfold malformedPayload at h
    simp only [getNearbyRestaurants]
    by_cases he : (stripFences (jsTrim s.data)).isEmpty
    · rw [if_pos he]
    · rw [if_neg he]
      cases hp : parseJson (stripFences (jsTrim s.data)) with
      | none => rfl
      | some j =>
        rw [hp] at h
        cases j with
        | arr es => simp [isJsonArr] at h
        | null => rfl
        | bool b => rfl
        | num q => rfl
        | str t => rfl
        | obj l => rfl
  have hmain : handleSearchOutcome dist (some s) rnd = Except.ok [] := by
    unfold handleSearchOutcome
    rw [hg]
    rfl
  exact ⟨hmain, by unfold handleSearchError; rw [hmain]⟩

/-- C2 witness: the amended theorem applied at the literal input
"not json". -/
theorem claim2_witness :
    malformedPayload "not json" = true ∧
      (handleSearchOutcome (fun _ => 0) (some "not json") (fun _ => "R") = Except.ok []
        ∧ handleSearchError (fun _ => 0) (some "not json") (fun _ => "R") = none) :=
  ⟨by decide, claim2_theorem (fun _ => 0) (fun _ => "R") "not json" (by decide)⟩

/-- C3, counterexample: the claim says results never contain two entries
with the same present non-empty placeId; on a payload whose two elements
both carry placeId "X" (and a well-formed location), the search completes
and stores two records with the same placeId "X" — no de-duplication is
performed. -/
theorem claim3_counterexample :
    (handleSearchOutcome (fun _ => 0)
        (some "[\x7b\"placeId\":\"X\",\"location\":\x7b\"lat\":1,\"lng\":1\x7d\x7d,\x7b\"placeId\":\"X\",\"location\":\x7b\"lat\":2,\"lng\":2\x7d\x7d]")
        (fun _ => "R")).map (fun rs => rs.map (fun pr => pr.1.placeId))
      = Except.ok [Json.str "X", Json.str "X"] := rfl

/-- C3 (amended): the pipeline performs no de-duplication; the normalized
records repeat exactly the payload's placeIds.  In particular the results
have pairwise-distinct placeIds exactly under the assumption that the oracle
already returned distinct non-empty placeIds (here: each element carries a
non-empty string placeId and those strings are distinct). -/
theorem claim3_theorem (rnd : Nat → String) (i : Nat) (es : List Json)
    (rs : List RawRestaurant) (ss : List String)
    (h1 : normPlaces rnd i es = some rs) (h2 : pidStrings es = some ss)
    (h3 : ss.Nodup) :
    (rs.map (fun r => r.placeId)).Nodup := by
  rw [normPlaces_placeIds rnd i es rs ss h1 h2]
  exact h3.map (fun a b hab => by injection hab)

/-- C3 witness: the amended theorem applied to a two-element payload with
distinct placeIds. -/
theorem claim3_witness :
    (([{ placeId := Json.str "A1", name := none, rating := Json.num 0,
         reviewCount := Json.num 0, vicinity := none, location := none,
         types := Json.arr [] },
       { placeId := Json.str "B2", name := none, rating := Json.num 0,
         reviewCount := Json.num 0, vicinity := none, location := none,
         types := Json.arr [] }] : List RawRestaurant).map
      (fun r => r.placeId)).Nodup :=
  claim3_theorem (fun _ => "R") 0
    [Json.obj [("placeId", Json.str "A1")], Json.obj [("placeId", Json.str "B2")]]
    _ ["A1", "B2"] rfl rfl (by decide)

/-- C4, counterexample: the claim says a non-numeric rating is defaulted to
0; a truthy non-numeric rating (the string "good") is passed through
unchanged, because the code uses JavaScript || which only replaces falsy
values. -/
theorem claim4_counterexample :
    (getNearbyRestaurants (some "[\x7b\"name\":\"A\",\"rating\":\"good\"\x7d]")
        (fun _ => "R")).map (fun r => r.rating) = [Json.str "good"] := rfl

/-- C4 (amended): `rating` and `reviewCount` default to 0 when absent or
falsy (absent, null, 0, false, the empty string) — not for every non-numeric
value, since a truthy non-numeric value passes through.  The concrete part
of the claim holds as stated: on the literal one-element payload naming
"Cafe A" with location (1,1), the step yields exactly one record with
rating 0, reviewCount 0, empty types, and the non-empty synthesized placeId
"generated-Cafe A-" followed by the random suffix. -/
theorem claim4_theorem :
    (∀ rnd : Nat → String,
      (getNearbyRestaurants
          (some "[\x7b\"name\":\"Cafe A\",\"location\":\x7b\"lat\":1,\"lng\":1\x7d\x7d]")
          rnd).map (fun r => (r.rating, r.reviewCount, r.types, r.placeId))
        = [(Json.num 0, Json.num 0, Json.arr [],
            Json.str ("generated-Cafe A-" ++ rnd 0))]) ∧
    (∀ (suffix : String) (place : Json), place ≠ Json.null →
      (getField place "rating" = none
          ∨ ∃ v, getField place "rating" = some v ∧ jsTruthy v = false) →
      (normElem suffix place).map (fun r => r.rating) = some (Json.num 0)) ∧
    (∀ (suffix : String) (place : Json), place ≠ Json.null →
      (getField place "reviewCount" = none
          ∨ ∃ v, getField place "reviewCount" = some v ∧ jsTruthy v = false) →
      (normElem suffix place).map (fun r => r.reviewCount) = some (Json.num 0)) := by
  refine ⟨fun rnd => rfl, ?_, ?_⟩
  · intro suffix place hp hv
    rw [normElem_eq suffix place hp, Option.map_some']
    exact congrArg some (jsOr_of_falsy hv)
  · intro suffix place hp hv
    rw [normElem_eq suffix place hp, Option.map_some']
    exact congrArg some (jsOr_of_falsy hv)

/-- C4 witness: the defaulting conjunct applied to the empty object (rating
absent). -/
theorem claim4_witness :
    (normElem "R" (Json.obj [])).map (fun r => r.rating) = some (Json.num 0) :=
  claim4_theorem.2.1 "R" (Json.obj [])
    (fun hc => Json.noConfusion hc) (Or.inl rfl)

/-- C5: sorting with sortKey = Rating produces a sequence of non-increasing
ratings, and the sort is stable — for every rating value, the records
carrying it appear in the same relative order as in the (filtered) input,
which preserves the oracle-returned order. -/
theorem claim5_theorem (restaurants : List Restaurant) (minRating : ℚ) :
    (sortedAndFilteredRestaurants restaurants SortBy.rating minRating).Pairwise
        (fun a b => b.rating ≤ a.rating) ∧
      ∀ q : ℚ,
        (sortedAndFilteredRestaurants restaurants SortBy.rating minRating).filter
            (fun r => decide (r.rating = q))
          = (restaurants.filter (fun r => decide (minRating ≤ r.rating))).filter
              (fun r => decide (r.rating = q)) := by
  constructor
  · exact List.sorted_insertionSort (sortRel SortBy.rating) _
  · intro q
    apply filter_insertionSort
    intro x y hxy hpx
    have hxy' : ¬ (y.rating ≤ x.rating) := hxy
    have hlt : x.rating < y.rating := lt_of_not_le hxy'
    have hq : x.rating = q := of_decide_eq_true hpx
    exact decide_eq_false (fun hyq => (ne_of_gt hlt) (hyq.trans hq.symm))

/-- C6: sorting with sortKey = Distance produces a sequence that is
non-decreasing in the comparator key `distance ?? Infinity` (`distKey`); in
particular every record lacking a distance is placed after all records that
have one, and present distances are non-decreasing. -/
theorem claim6_theorem (restaurants : List Restaurant) (minRating : ℚ) :
    (sortedAndFilteredRestaurants restaurants SortBy.distance minRating).Pairwise
        (fun a b => distKey a ≤ distKey b) ∧
      (sortedAndFilteredRestaurants restaurants SortBy.distance minRating).Pairwise
        (fun a b => a.distance = none → b.distance = none) ∧
      (sortedAndFilteredRestaurants restaurants SortBy.distance minRating).Pairwise
        (fun a b => ∀ da db, a.distance = some da → b.distance = some db → da ≤ db) := by
  have hs : (sortedAndFilteredRestaurants restaurants SortBy.distance minRating).Pairwise
      (fun a b => distKey a ≤ distKey b) :=
    List.sorted_insertionSort (sortRel SortBy.distance) _
  refine ⟨hs, hs.imp ?_, hs.imp ?_⟩
  · intro a b hab ha
    have h1 : distKey a = ⊤ := distKey_eq_top.mpr ha
    rw [h1] at hab
    exact distKey_eq_top.mp (top_le_iff.mp hab)
  · intro a b hab da db hda hdb
    simp only [distKey, hda, hdb] at hab
    exact_mod_cast hab

/-- C7: over the ideal reals, the haversine `getDistance` is zero on equal
coordinates and symmetric in its two coordinate pairs. -/
theorem claim7_theorem :
    (∀ lat lon : ℝ, getDistance lat lon lat lon = 0) ∧
      ∀ lat1 lon1 lat2 lon2 : ℝ,
        getDistance lat1 lon1 lat2 lon2 = getDistance lat2 lon2 lat1 lon1 := by
  constructor
  · intro lat lon
    have hhav : hav lat lon lat lon = 0 := by
      unfold hav
      simp
    unfold getDistance
    rw [hhav, Real.sqrt_zero]
    have h1 : Real.sqrt (1 - 0) = 1 := by norm_num
    rw [h1]
    unfold atan2
    rw [if_pos (by norm_num : (0 : ℝ) < 1), zero_div, Real.arctan_zero]
    ring
  · intro lat1 lon1 lat2 lon2
    have hsin : ∀ u v : ℝ, Real.sin ((u - v) * Real.pi / 180 / 2)
        = -Real.sin ((v - u) * Real.pi / 180 / 2) := by
      intro u v
      rw [show (u - v) * Real.pi / 180 / 2 = -((v - u) * Real.pi / 180 / 2) by ring,
        Real.sin_neg]
    have hhav : hav lat1 lon1 lat2 lon2 = hav lat2 lon2 lat1 lon1 := by
      unfold hav
      rw [hsin lat2 lat1, hsin lon2 lon1]
      ring
    unfold getDistance
    rw [hhav]

/-- C8: the rank/filter operation never returns a record whose rating is
below the minimum: every member of the sorted-and-filtered list satisfies
`minRating <= rating`. -/
theorem claim8_theorem (restaurants : List Restaurant) (sortBy : SortBy) (minRating : ℚ)
    (r : Restaurant) (h : r ∈ sortedAndFilteredRestaurants restaurants sortBy minRating) :
    minRating ≤ r.rating := by
  have hm : r ∈ restaurants.filter (fun x => decide (minRating ≤ x.rating)) :=
    (List.perm_insertionSort (sortRel sortBy) _).subset h
  simpa using List.of_mem_filter hm

/-- C8 witness: the theorem applied to a one-element list that survives the
filter. -/
theorem claim8_witness :
    (0 : ℚ) ≤ (({ placeId := "p", name := "n", rating := 4, reviewCount := 10,
                  vicinity := "v", location := (0, 0), imageUrl := none,
                  distance := some 1 } : Restaurant)).rating :=
  claim8_theorem
    [{ placeId := "p", name := "n", rating := 4, reviewCount := 10,
       vicinity := "v", location := (0, 0), imageUrl := none, distance := some 1 }]
    SortBy.rating 0 _ (by decide)

/-- C9: `extractLocality` (modelled from the spec, §4.4) returns
"Springfield" on "123 Main St, Springfield, IL" and "Paris" on the
single-segment input "Paris". -/
theorem claim9_theorem :
    extractLocality "123 Main St, Springfield, IL" = "Springfield"
      ∧ extractLocality "Paris" = "Paris" :=
  ⟨rfl, rfl⟩

/-- C10: for a rating between 0 and 5 the three star counts of `StarRating`
are non-negative and sum to 5 (so the negative-array-length branch is
unreachable under that precondition), while a rating above 5 — e.g. 5.5 —
makes the empty-star count negative. -/
theorem claim10_theorem :
    (∀ rating : ℚ, 0 ≤ rating → rating ≤ 5 →
      0 ≤ fullStars rating ∧ 0 ≤ halfStarCount rating ∧ 0 ≤ emptyStars rating ∧
        fullStars rating + halfStarCount rating + emptyStars rating = 5) ∧
      emptyStars (11 / 2) < 0 := by
  constructor
  · intro r h0 h5
    have hfull0 : 0 ≤ fullStars r := by
      unfold fullStars
      exact Int.floor_nonneg.mpr h0
    have hfull5 : fullStars r ≤ 5 := by
      unfold fullStars
      have h55 : (⌊(5 : ℚ)⌋ : ℤ) = 5 := by norm_num
      calc ⌊r⌋ ≤ ⌊(5 : ℚ)⌋ := Int.floor_le_floor h5
        _ = 5 := h55
    have hmod : jsMod1 r = r - ⌊r⌋ := by
      unfold jsMod1
      rw [if_pos h0]
    have hhc : 0 ≤ halfStarCount r := by
      unfold halfStarCount
      split <;> norm_num
    have hempty : 0 ≤ emptyStars r := by
      unfold emptyStars halfStarCount
      by_cases hh : halfStar r
      · rw [if_pos hh]
        have hne5 : fullStars r ≠ 5 := by
          intro heq
          have hr5 : (5 : ℚ) ≤ r := by
            have h5le : (5 : ℤ) ≤ ⌊r⌋ := le_of_eq heq.symm
            exact_mod_cast Int.le_floor.mp h5le
          have hreq : r = 5 := le_antisymm h5 hr5
          have hm0 : jsMod1 r = 0 := by rw [hmod, hreq]; norm_num
          unfold halfStar at hh
          rw [hm0] at hh
          norm_num at hh
        omega
      · rw [if_neg hh]
        omega
    refine ⟨hfull0, hhc, hempty, ?_⟩
    unfold emptyStars
    ring
  · have hm : jsMod1 (11 / 2) = 1 / 2 := by norm_num [jsMod1]
    norm_num [emptyStars, fullStars, halfStarCount, halfStar, hm]

/-- C10 witness: the bound applied at the rating 4.6. -/
theorem claim10_witness :
    0 ≤ fullStars (23 / 5) ∧ 0 ≤ halfStarCount (23 / 5) ∧ 0 ≤ emptyStars (23 / 5) ∧
      fullStars (23 / 5) + halfStarCount (23 / 5) + emptyStars (23 / 5) = 5 :=
  claim10_theorem.1 (23 / 5) (by norm_num) (by norm_num)

end TravelMind
